import Mathlib

/-!
Verification development for the vessel-IRR application
(`src/vessel_irr_app.py`).

The Python program computes with IEEE doubles; here every arithmetic
operation is embedded as exact rational (`ℚ`) arithmetic.  Python's
`x ** (-n)` on a nonzero base equals `(x ^ n)⁻¹`, which is how the
negative exponent in the annuity formula is rendered.  A Python
`ZeroDivisionError` (raised when the annuity denominator is exactly
zero, e.g. at a 0% loan interest rate) aborts the whole projection, so
the projection entry point `project_cash_flows` is `Option`-valued and
returns `none` exactly in that case; all other arithmetic in the
program is total.
-/

/-- Vessel classes offered by the app's selectbox
(`"Suezmax"` / `"Aframax"`). -/
inductive VesselType
  | Suezmax
  | Aframax
deriving DecidableEq

/-- Embedding of `estimate_resale_price` (lines 6–15): four fixed
linear regressions selected by `(vessel_type, investment_term)`; the
decimal float literals of the source are written as exact rationals
(`-2.055e-2 = -2055/100000`, etc.).  Every case not matched by the
three explicit tests falls into the source's final `else` branch, the
Aframax 10-year coefficients. -/
def estimate_resale_price (vessel_type : VesselType) (investment_term : ℕ)
    (three_yr_tc : ℚ) : ℚ :=
  let resale_million : ℚ :=
    if vessel_type = .Suezmax ∧ investment_term = 5 then
      -2055 / 100000 + 2150 / 1000000 * three_yr_tc
    else if vessel_type = .Suezmax ∧ investment_term = 10 then
      -1561 / 100 + 2164 / 1000000 * three_yr_tc
    else if vessel_type = .Aframax ∧ investment_term = 5 then
      -3278 / 10000 + 2016 / 1000000 * three_yr_tc
    else
      -1122 / 100 + 1915 / 1000000 * three_yr_tc
  resale_million * 1000000

/-- Result of `calculate_irr`: the source returns either
`new_rate * 100` (a finite percentage) or the float `nan`
(`float('nan')`, returned by both failure branches). -/
inductive IRROutcome
  | nan
  | rate (value : ℚ)
deriving DecidableEq

/-- Embedding of `sum(cf / (1 + rate) ** idx for idx, cf in
enumerate(cash_flows))` (line 21), with the running `enumerate` index
made explicit. -/
def npvAux (r : ℚ) : ℕ → List ℚ → ℚ
  | _, [] => 0
  | idx, cf :: rest => cf / (1 + r) ^ idx + npvAux r (idx + 1) rest

/-- Embedding of `sum(-idx * cf / (1 + rate) ** (idx + 1) for idx, cf
in enumerate(cash_flows))` (line 22). -/
def derivAux (r : ℚ) : ℕ → List ℚ → ℚ
  | _, [] => 0
  | idx, cf :: rest => -(idx : ℚ) * cf / (1 + r) ^ (idx + 1) + derivAux r (idx + 1) rest

/-- NPV of a cash-flow list at a rate, indices starting at 0. -/
def npv (cash_flows : List ℚ) (r : ℚ) : ℚ := npvAux r 0 cash_flows

/-- Derivative of the NPV of a cash-flow list at a rate. -/
def npvDeriv (cash_flows : List ℚ) (r : ℚ) : ℚ := derivAux r 0 cash_flows

/-- The `for i in range(max_iterations)` loop of `calculate_irr`
(lines 20–29), with the remaining iteration budget as fuel: zero
derivative returns `nan` (line 24); a step smaller than the tolerance
returns `new_rate * 100` (line 27); an exhausted budget returns `nan`
(line 29). -/
def irrLoop (cash_flows : List ℚ) (tolerance : ℚ) : ℚ → ℕ → IRROutcome
  | _, 0 => .nan
  | rate, fuel + 1 =>
    let currentNpv := npv cash_flows rate
    let derivative := npvDeriv cash_flows rate
    if derivative = 0 then .nan
    else
      let new_rate := rate - currentNpv / derivative
      if |new_rate - rate| < tolerance then .rate (new_rate * 100)
      else irrLoop cash_flows tolerance new_rate fuel

/-- Embedding of `calculate_irr` (lines 18–29).  The Python defaults
are `guess=0.1`, `max_iterations=1000`, `tolerance=1e-6`; the app's
single call site (line 105) uses exactly those defaults. -/
def calculate_irr (cash_flows : List ℚ) (guess : ℚ) (max_iterations : ℕ)
    (tolerance : ℚ) : IRROutcome :=
  irrLoop cash_flows tolerance guess max_iterations

/-- The NPV function exactly as the specification writes it:
`f(r) = Σ cf[i] / (1+r)^i`. -/
def specNPV (cfs : List ℚ) (r : ℚ) : ℚ :=
  ∑ i in Finset.range cfs.length, cfs.getD i 0 / (1 + r) ^ i

/-- The NPV derivative exactly as the specification writes it:
`f'(r) = Σ −i·cf[i] / (1+r)^(i+1)`. -/
def specNPVDeriv (cfs : List ℚ) (r : ℚ) : ℚ :=
  ∑ i in Finset.range cfs.length, -(i : ℚ) * cfs.getD i 0 / (1 + r) ^ (i + 1)

/-- The scalar inputs read by the app (lines 37–57).  The disposal
sale-commission rate is deliberately NOT a field: the source fixes it
in the constant `sale_commission_rate` (line 51) and no widget or
parameter can override it. -/
structure Params where
  vessel_type : VesselType
  purchase_price : ℚ
  opex_day : ℚ
  opex_growth : ℚ
  dd_cost : ℚ
  dd_year : ℕ
  investment_term : ℕ
  three_yr_tc : ℚ
  mortgage_percent : ℚ
  loan_interest_rate : ℚ
  loan_arrangement_fee : ℚ
  loan_repayment_term : ℕ
  earn_years_1_3 : ℚ
  earn_years_4_5 : ℚ
  earn_years_6_10 : ℚ

/-- `sale_commission_rate = 1.0  # 1% sale commission` (line 51). -/
def sale_commission_rate : ℚ := 1

/-- `resale_price = estimate_resale_price(vessel_type, investment_term,
three_yr_tc)` (line 60). -/
def resale_price (p : Params) : ℚ :=
  estimate_resale_price p.vessel_type p.investment_term p.three_yr_tc

/-- `resale_price_net = resale_price * (1 - sale_commission_rate / 100)`
(line 61). -/
def resale_price_net (p : Params) : ℚ :=
  resale_price p * (1 - sale_commission_rate / 100)

/-- `initial_equity = purchase_price * (1 - mortgage_percent / 100)`
(line 64). -/
def initial_equity (p : Params) : ℚ :=
  p.purchase_price * (1 - p.mortgage_percent / 100)

/-- `loan_amount = purchase_price * (mortgage_percent / 100)`
(line 65). -/
def loan_amount (p : Params) : ℚ :=
  p.purchase_price * (p.mortgage_percent / 100)

/-- The annuity formula of line 66, parametrised by the loan amount, the
interest rate in percent and the repayment term:
`(amount * ratePct / 100) / (1 - (1 + ratePct / 100) ** (-term))`.
The negative float exponent is rendered as the inverse of the `term`-th
power. -/
def annuity_payment (amount ratePct : ℚ) (term : ℕ) : ℚ :=
  (amount * ratePct / 100) / (1 - ((1 + ratePct / 100) ^ term)⁻¹)

/-- Denominator of the annuity formula; Python raises
`ZeroDivisionError` when it is exactly zero. -/
def annuityDenom (p : Params) : ℚ :=
  1 - ((1 + p.loan_interest_rate / 100) ^ p.loan_repayment_term)⁻¹

/-- `annual_loan_payment = ...` (line 66) applied to the app's inputs. -/
def annual_loan_payment (p : Params) : ℚ :=
  annuity_payment (loan_amount p) p.loan_interest_rate p.loan_repayment_term

/-- Earnings band lookup of lines 73–78: years ≤ 3 use the 1–3 band,
years 4–5 the 4–5 band, later years the 6–10 band (times 365 days). -/
def earningsFor (p : Params) (year : ℕ) : ℚ :=
  if year ≤ 3 then p.earn_years_1_3 * 365
  else if year ≤ 5 then p.earn_years_4_5 * 365
  else p.earn_years_6_10 * 365

/-- The body of the projection loop (lines 80–96) for one year, given
the current (already compounded) annual opex: earnings minus opex,
minus the loan payment while `year <= loan_repayment_term`, minus the
dry-dock cost when `dd_year == year and dd_cost > 0`, plus the net
resale price in the final year. -/
def netCashFor (p : Params) (opex : ℚ) (year : ℕ) : ℚ :=
  let net1 := earningsFor p year - opex
  let net2 := if year ≤ p.loan_repayment_term then net1 - annual_loan_payment p else net1
  let net3 := if p.dd_year = year ∧ 0 < p.dd_cost then net2 - p.dd_cost else net2
  if year = p.investment_term then net3 + resale_price_net p else net3

/-- The `for year in range(1, investment_term + 1)` loop (lines
72–102), threading the current year and the opex value that is
multiplied by `(1 + opex_growth / 100)` at the end of each iteration
(line 102). -/
def projectLoop (p : Params) : ℕ → ℚ → ℕ → List ℚ
  | _, _, 0 => []
  | year, opex, fuel + 1 =>
    netCashFor p opex year :: projectLoop p (year + 1) (opex * (1 + p.opex_growth / 100)) fuel

/-- The full cash-flow list: year 0 is
`-initial_equity - loan_arrangement_fee` (line 68), followed by the
loop over years `1 .. investment_term` started at opex
`opex_day * 365` (line 71). -/
def cash_flows (p : Params) : List ℚ :=
  (-(initial_equity p) - p.loan_arrangement_fee) ::
    projectLoop p 1 (p.opex_day * 365) p.investment_term

/-- The projection as observed by the caller: Python evaluates
`annual_loan_payment` (line 66) before any cash flow is built, so a
zero annuity denominator raises `ZeroDivisionError` and no list is
ever produced; that abort is modelled as `none`. -/
def project_cash_flows (p : Params) : Option (List ℚ) :=
  if annuityDenom p = 0 then none else some (cash_flows p)

/-- The default widget values of the sidebar (lines 37–57): Suezmax,
price 50,000,000, opex 10,000/day growing 2%/yr, no dry dock, term 5,
3yr TC 30,000, mortgage 60% at 5% over 5 years with a 100,000 fee,
earnings 25,000 / 27,000 / 29,000 per day. -/
def defaultParams : Params :=
  Params.mk .Suezmax 50000000 10000 2 0 0 5 30000 60 5 100000 5 25000 27000 29000

/-- The default widget values with the mortgage percentage set to 0:
an unfinanced purchase (but still with the default 100,000 arrangement
fee). -/
def noLoanParams : Params :=
  Params.mk .Suezmax 50000000 10000 2 0 0 5 30000 0 5 100000 5 25000 27000 29000

/-- The default widget values with a dry dock of cost 1000 configured
in year 7 — outside the holding period `[1, 5]`, violating the §3
invariant `overhaul year ∈ [1, holding period]`. -/
def badDDParams : Params :=
  Params.mk .Suezmax 50000000 10000 2 1000 7 5 30000 60 5 100000 5 25000 27000 29000

/-- `badDDParams` with the dry-dock cost removed. -/
def badDDParamsZero : Params :=
  Params.mk .Suezmax 50000000 10000 2 0 7 5 30000 60 5 100000 5 25000 27000 29000

/-! ### Claim C3 — resale fallback for unsupported holding periods -/

/-- C3 counterexample: the claim says an unsupported holding period
falls back to the 10-year coefficients *of the same vessel class*, but
for a Suezmax with term 7 the source's `else` branch applies the
Aframax 10-year pair: at `three_yr_tc = 0` the result is −11,220,000
(the Aframax 10-year intercept), not Suezmax's −15,610,000. -/
theorem estimate_resale_price_suezmax_fallback_cross_class :
    estimate_resale_price .Suezmax 7 0 = estimate_resale_price .Aframax 10 0 ∧
    estimate_resale_price .Suezmax 7 0 = -11220000 ∧
    estimate_resale_price .Suezmax 10 0 = -15610000 ∧
    estimate_resale_price .Suezmax 7 0 ≠ estimate_resale_price .Suezmax 10 0 := by
  have hAS : (VesselType.Aframax = VesselType.Suezmax) = False := eq_false (by decide)
  have h7 : estimate_resale_price .Suezmax 7 0 = -11220000 := by
    simp only [estimate_resale_price]; norm_num
  have h10a : estimate_resale_price .Aframax 10 0 = -11220000 := by
    simp only [estimate_resale_price, hAS]; norm_num
  have h10s : estimate_resale_price .Suezmax 10 0 = -15610000 := by
    simp only [estimate_resale_price]; norm_num
  refine ⟨by rw [h7, h10a], h7, h10s, by rw [h7, h10s]; norm_num⟩

/-- C3 amended: for every vessel class and every holding period other
than 5 and 10, `estimate_resale_price` returns the price computed from
the final `else` branch, i.e. the Aframax 10-year coefficient pair,
regardless of the vessel class. -/
theorem estimate_resale_price_fallback_aframax10 (vt : VesselType) (t : ℕ) (tc : ℚ)
    (h5 : t ≠ 5) (h10 : t ≠ 10) :
    estimate_resale_price vt t tc = estimate_resale_price .Aframax 10 tc := by
  have hAS : (VesselType.Aframax = VesselType.Suezmax) = False := eq_false (by decide)
  cases vt <;> simp [estimate_resale_price, hAS, h5, h10]

/-- C3 witness: the amended fallback at the concrete input
(Suezmax, term 7, tc 0). -/
theorem estimate_resale_price_fallback_aframax10_witness :
    (7 : ℕ) ≠ 5 ∧ (7 : ℕ) ≠ 10 ∧
    estimate_resale_price .Suezmax 7 0 = estimate_resale_price .Aframax 10 0 :=
  ⟨by decide, by decide,
    estimate_resale_price_fallback_aframax10 .Suezmax 7 0 (by decide) (by decide)⟩

/-! ### Claim C5 — annuity payment value check -/

/-- C5 counterexample: the annuity payment for loan amount 60,000,000,
rate 5% and term 5 years is not within ±1 of the specification's
≈13,864,088: the exact value is `12252303000000 / 884101 ≈
13,858,487.89`, more than 5,600 away. -/
theorem annuity_payment_not_13864088 :
    1 < |annuity_payment 60000000 5 5 - 13864088| := by
  have h : annuity_payment 60000000 5 5 = 12252303000000 / 884101 := by
    norm_num [annuity_payment]
  rw [h, abs_sub_comm, lt_abs]
  left
  norm_num

/-- C5 amended: the annuity payment for loan amount 60,000,000, rate
5% and term 5 years equals ≈13,858,488 within ±1 unit of rounding
(exactly `12252303000000 / 884101`). -/
theorem annuity_payment_value_check :
    |annuity_payment 60000000 5 5 - 13858488| ≤ 1 ∧
    annuity_payment 60000000 5 5 = 12252303000000 / 884101 := by
  constructor
  · rw [abs_sub_le_iff]
    norm_num [annuity_payment]
  · norm_num [annuity_payment]

/-! ### Claim C9 — zero interest rate divides by zero -/

/-- C9: for every parameter record with loan interest rate exactly 0
(admissible: the widget only enforces ≥ 0), the annuity denominator
`1 - (1 + 0/100) ** (-term)` is exactly 0, so line 66 divides by zero
and the projection aborts (`none`) — even when the mortgage percentage
(hence the loan amount) is 0. -/
theorem project_cash_flows_zero_rate_division (p : Params)
    (h : p.loan_interest_rate = 0) :
    annuityDenom p = 0 ∧ project_cash_flows p = none := by
  have hd : annuityDenom p = 0 := by
    simp [annuityDenom, h]
  exact ⟨hd, by simp [project_cash_flows, hd]⟩

/-- C9 witness: a concrete unfinanced parameter set (mortgage 0%,
interest 0%) on which the projection aborts. -/
theorem project_cash_flows_zero_rate_division_witness :
    (Params.mk .Suezmax 50000000 10000 2 0 0 5 30000 0 0 100000 5 25000 27000 29000).loan_interest_rate = 0 ∧
    project_cash_flows
      (Params.mk .Suezmax 50000000 10000 2 0 0 5 30000 0 0 100000 5 25000 27000 29000) = none :=
  ⟨rfl,
    (project_cash_flows_zero_rate_division
      (Params.mk .Suezmax 50000000 10000 2 0 0 5 30000 0 0 100000 5 25000 27000 29000) rfl).2⟩

/-! ### Solver helper lemmas -/

/-- Exhausting the iteration budget returns `nan` (line 29). -/
theorem irrLoop_fuel_zero (cfs : List ℚ) (tol r : ℚ) :
    irrLoop cfs tol r 0 = .nan := rfl

/-- A zero derivative at the current rate returns `nan` (line 24). -/
theorem irrLoop_deriv_zero (cfs : List ℚ) (tol r : ℚ) (n : ℕ)
    (h : npvDeriv cfs r = 0) :
    irrLoop cfs tol r (n + 1) = .nan := by
  simp [irrLoop, h]

/-- One unfolding of the loop when the derivative is nonzero. -/
theorem irrLoop_step (cfs : List ℚ) (tol r : ℚ) (n : ℕ)
    (h : npvDeriv cfs r ≠ 0) :
    irrLoop cfs tol r (n + 1) =
      (if |r - npv cfs r / npvDeriv cfs r - r| < tol then
        .rate ((r - npv cfs r / npvDeriv cfs r) * 100)
      else irrLoop cfs tol (r - npv cfs r / npvDeriv cfs r) n) := by
  simp [irrLoop, h]

/-- `npvAux` computes the indexed sum of the specification's NPV
formula, with the running index shifting the exponent. -/
theorem npvAux_eq_sum (l : List ℚ) : ∀ (i : ℕ) (r : ℚ),
    npvAux r i l = ∑ j in Finset.range l.length, l.getD j 0 / (1 + r) ^ (i + j) := by
  induction l with
  | nil => intro i r; simp [npvAux]
  | cons a l ih =>
    intro i r
    have hsum : ∑ j in Finset.range l.length, l.getD j 0 / (1 + r) ^ (i + 1 + j)
        = ∑ j in Finset.range l.length, l.getD j 0 / (1 + r) ^ (i + (j + 1)) := by
      refine Finset.sum_congr rfl fun j _ => ?_
      rw [show i + 1 + j = i + (j + 1) by omega]
    simp only [npvAux, List.length_cons]
    rw [ih (i + 1) r, Finset.sum_range_succ']
    simp only [List.getD_cons_succ, List.getD_cons_zero, Nat.add_zero]
    rw [hsum]
    ring

/-- `derivAux` computes the indexed sum of the specification's NPV
derivative formula. -/
theorem derivAux_eq_sum (l : List ℚ) : ∀ (i : ℕ) (r : ℚ),
    derivAux r i l =
      ∑ j in Finset.range l.length, -((i + j : ℕ) : ℚ) * l.getD j 0 / (1 + r) ^ (i + j + 1) := by
  induction l with
  | nil => intro i r; simp [derivAux]
  | cons a l ih =>
    intro i r
    have hsum : ∑ j in Finset.range l.length, -((i + 1 + j : ℕ) : ℚ) * l.getD j 0 / (1 + r) ^ (i + 1 + j + 1)
        = ∑ j in Finset.range l.length, -((i + (j + 1) : ℕ) : ℚ) * l.getD j 0 / (1 + r) ^ (i + (j + 1) + 1) := by
      refine Finset.sum_congr rfl fun j _ => ?_
      rw [show i + 1 + j = i + (j + 1) by omega]
    simp only [derivAux, List.length_cons]
    rw [ih (i + 1) r, Finset.sum_range_succ']
    simp only [List.getD_cons_succ, List.getD_cons_zero, Nat.add_zero]
    rw [hsum]
    ring

/-- The solver's NPV (line 21) is exactly the specification's
`f(r) = Σ cf[i] / (1+r)^i`. -/
theorem npv_eq_specNPV (cfs : List ℚ) (r : ℚ) : npv cfs r = specNPV cfs r := by
  rw [npv, npvAux_eq_sum, specNPV]
  exact Finset.sum_congr rfl fun j _ => by rw [Nat.zero_add]

/-- The solver's derivative (line 22) is exactly the specification's
`f'(r) = Σ −i·cf[i] / (1+r)^(i+1)`. -/
theorem npvDeriv_eq_specNPVDeriv (cfs : List ℚ) (r : ℚ) :
    npvDeriv cfs r = specNPVDeriv cfs r := by
  rw [npvDeriv, derivAux_eq_sum, specNPVDeriv]
  exact Finset.sum_congr rfl fun j _ => by rw [Nat.zero_add]

/-! ### Claim C2 — Newton-Raphson iteration and success return -/

/-- C2: for every cash-flow sequence (year 0 first), guess, remaining
iteration budget and positive tolerance, one solver step computes
`r' = r − f(r)/f'(r)` with `f`, `f'` the specification's NPV and
derivative sums; if `|r' − r| < tolerance` the solver returns
`r' × 100`, otherwise it continues from `r'` with one unit of budget
spent.  The hypothesis `1 + guess ≠ 0` keeps the statement on inputs
where the Python float arithmetic does not raise
`ZeroDivisionError` inside the NPV sums. -/
theorem calculate_irr_newton_step (cfs : List ℚ) (guess tol : ℚ) (n : ℕ)
    (htol : 0 < tol) (hbase : 1 + guess ≠ 0)
    (hd : specNPVDeriv cfs guess ≠ 0) :
    (|guess - specNPV cfs guess / specNPVDeriv cfs guess - guess| < tol →
      calculate_irr cfs guess (n + 1) tol =
        .rate ((guess - specNPV cfs guess / specNPVDeriv cfs guess) * 100)) ∧
    (¬ |guess - specNPV cfs guess / specNPVDeriv cfs guess - guess| < tol →
      calculate_irr cfs guess (n + 1) tol =
        calculate_irr cfs (guess - specNPV cfs guess / specNPVDeriv cfs guess) n tol) := by
  have hnpv := npv_eq_specNPV cfs guess
  have hder := npvDeriv_eq_specNPVDeriv cfs guess
  have hd' : npvDeriv cfs guess ≠ 0 := by rw [hder]; exact hd
  have hstep := irrLoop_step cfs tol guess n hd'
  rw [hnpv, hder] at hstep
  constructor
  · intro hconv
    rw [calculate_irr, hstep, if_pos hconv]
  · intro hconv
    rw [calculate_irr, hstep, if_neg hconv]
    rfl

/-- C2 witness: on the schedule `[−100, 110]` with guess 0.1 the first
Newton step lands exactly on the root (step 0 < tolerance), and the
solver returns `0.1 × 100 = 10%`. -/
theorem calculate_irr_newton_step_witness :
    (0 : ℚ) < 1/1000000 ∧ (1 : ℚ) + 1/10 ≠ 0 ∧
    specNPVDeriv [-100, 110] (1/10) ≠ 0 ∧
    |(1/10 - specNPV [-100, 110] (1/10) / specNPVDeriv [-100, 110] (1/10)) - 1/10| < 1/1000000 ∧
    calculate_irr [-100, 110] (1/10) 1 (1/1000000) =
      .rate ((1/10 - specNPV [-100, 110] (1/10) / specNPVDeriv [-100, 110] (1/10)) * 100) := by
  have h1 : specNPV [-100, 110] (1/10) = 0 := by
    simp [specNPV, Finset.sum_range_succ, List.getD]
    norm_num
  have h2 : specNPVDeriv [-100, 110] (1/10) = -1000/11 := by
    simp [specNPVDeriv, Finset.sum_range_succ, List.getD]
    norm_num
  have hd : specNPVDeriv [-100, 110] (1/10) ≠ 0 := by rw [h2]; norm_num
  have hconv : |(1/10 - specNPV [-100, 110] (1/10) / specNPVDeriv [-100, 110] (1/10)) - (1/10 : ℚ)| < 1/1000000 := by
    rw [h1, h2]
    norm_num
  exact ⟨by norm_num, by norm_num, hd, hconv,
    (calculate_irr_newton_step [-100, 110] (1/10) (1/1000000) 0 (by norm_num)
      (by norm_num) hd).1 hconv⟩

/-! ### Claim C1 — failure outcomes are NOT distinguishable -/

/-- C1 counterexample: a zero-derivative failure (schedule `[5]`: the
derivative is 0 at the very first step) and an iteration-budget
exhaustion (budget 0) both return the float `nan` — the very same,
unflagged value, so the caller cannot branch on the cause, and the
failure IS a silent NaN. -/
theorem calculate_irr_failure_causes_indistinct :
    calculate_irr [5] (1/10) 1000 (1/1000000) = .nan ∧
    calculate_irr [0, 1] (1/10) 0 (1/1000000) = .nan ∧
    calculate_irr [5] (1/10) 1000 (1/1000000) =
      calculate_irr [0, 1] (1/10) 0 (1/1000000) := by
  have hz : npvDeriv [(5 : ℚ)] (1/10) = 0 := by
    simp [npvDeriv, derivAux]
  have h1 : calculate_irr [5] (1/10) 1000 (1/1000000) = .nan := by
    rw [show (1000 : ℕ) = 999 + 1 from rfl]
    exact irrLoop_deriv_zero [5] (1/1000000) (1/10) 999 hz
  have h2 : calculate_irr [0, 1] (1/10) 0 (1/1000000) = .nan :=
    irrLoop_fuel_zero [0, 1] (1/1000000) (1/10)
  exact ⟨h1, h2, by rw [h1, h2]⟩

/-- C1 amended: both failure modes return the same value, the float
`nan`: an exhausted iteration budget returns `nan`, and a
zero-derivative step returns `nan`; the two causes are therefore not
distinguishable by the caller, and failure is distinguishable from a
valid finite rate only by a NaN check. -/
theorem calculate_irr_failures_both_nan (cfs : List ℚ) (guess tol : ℚ) (n : ℕ) :
    calculate_irr cfs guess 0 tol = .nan ∧
    (npvDeriv cfs guess = 0 → calculate_irr cfs guess (n + 1) tol = .nan) :=
  ⟨irrLoop_fuel_zero cfs tol guess,
    fun h => irrLoop_deriv_zero cfs tol guess n h⟩

/-- C1 witness: the amended statement at the concrete schedule `[5]`
(derivative 0 at the first step) with budget 1000, and at budget 0. -/
theorem calculate_irr_failures_both_nan_witness :
    calculate_irr [5] (1/10) 0 (1/1000000) = .nan ∧
    npvDeriv [(5 : ℚ)] (1/10) = 0 ∧
    calculate_irr [5] (1/10) 1000 (1/1000000) = .nan := by
  have hz : npvDeriv [(5 : ℚ)] (1/10) = 0 := by
    simp [npvDeriv, derivAux]
  refine ⟨(calculate_irr_failures_both_nan [5] (1/10) (1/1000000) 999).1, hz, ?_⟩
  exact (calculate_irr_failures_both_nan [5] (1/10) (1/1000000) 999).2 hz

/-! ### Projector helper lemmas -/

/-- Closed form of one loop body: each adjustment appears as an
explicit conditional summand. -/
theorem netCashFor_closed (p : Params) (ox : ℚ) (year : ℕ) :
    netCashFor p ox year =
      earningsFor p year - ox
      - (if year ≤ p.loan_repayment_term then annual_loan_payment p else 0)
      - (if p.dd_year = year ∧ 0 < p.dd_cost then p.dd_cost else 0)
      + (if year = p.investment_term then resale_price_net p else 0) := by
  simp only [netCashFor]
  split_ifs <;> ring

/-- Entry `j` of the projection loop started at `start` with opex `ox`
is the loop body at year `start + j` with the opex compounded `j`
times. -/
theorem projectLoop_entry (p : Params) :
    ∀ (fuel : ℕ) (start : ℕ) (ox : ℚ) (j : ℕ), j < fuel →
      (projectLoop p start ox fuel)[j]? =
        some (netCashFor p (ox * (1 + p.opex_growth / 100) ^ j) (start + j)) := by
  intro fuel
  induction fuel with
  | zero => intro start ox j h; exact absurd h (Nat.not_lt_zero j)
  | succ fuel ih =>
    intro start ox j hj
    cases j with
    | zero =>
      simp [projectLoop]
    | succ j =>
      have hj' : j < fuel := by omega
      simp only [projectLoop, List.getElem?_cons_succ]
      rw [ih (start + 1) (ox * (1 + p.opex_growth / 100)) j hj']
      have hox : ox * (1 + p.opex_growth / 100) * (1 + p.opex_growth / 100) ^ j
          = ox * (1 + p.opex_growth / 100) ^ (j + 1) := by
        rw [pow_succ]; ring
      have hyear : start + 1 + j = start + (j + 1) := by omega
      rw [hox, hyear]

/-- Year 0 of the cash-flow list is
`-initial_equity - loan_arrangement_fee`. -/
theorem cash_flows_entry_zero (p : Params) :
    (cash_flows p)[0]? = some (-(initial_equity p) - p.loan_arrangement_fee) := by
  rw [cash_flows]
  exact List.getElem?_cons_zero

/-- Entry `y` (for `1 ≤ y ≤ investment_term`) of the cash-flow list is
the loop body at year `y` with opex `opex_day * 365` compounded `y − 1`
times: opex growth is applied once per year transition from the year-1
base. -/
theorem cash_flows_entry (p : Params) (y : ℕ) (h1 : 1 ≤ y) (h2 : y ≤ p.investment_term) :
    (cash_flows p)[y]? =
      some (netCashFor p (p.opex_day * 365 * (1 + p.opex_growth / 100) ^ (y - 1)) y) := by
  obtain ⟨j, rfl⟩ : ∃ j, y = j + 1 := ⟨y - 1, by omega⟩
  rw [cash_flows, List.getElem?_cons_succ]
  rw [projectLoop_entry p p.investment_term 1 (p.opex_day * 365) j (by omega)]
  have hyear : 1 + j = j + 1 := by omega
  have hexp : j + 1 - 1 = j := by omega
  rw [hyear, hexp]

/-- A nonzero annuity denominator means the projection completes and
returns the cash-flow list. -/
theorem project_cash_flows_some (p : Params) (hden : annuityDenom p ≠ 0) :
    project_cash_flows p = some (cash_flows p) := by
  simp [project_cash_flows, hden]

/-! ### Claim C6 — opex compounds geometrically from the year-1 base -/

/-- C6: for every parameter record (whose projection completes) and
every year `y` in `1..investment_term`, the operating cost applied in
year `y` is exactly `opex_day * 365 * (1 + growth/100)^(y−1)`: the
year-`y` entry equals the loop body evaluated at that compounded opex,
the growth factor having been applied once per year transition
starting from the year-1 base. -/
theorem cash_flows_opex_geometric (p : Params) (y : ℕ)
    (h1 : 1 ≤ y) (h2 : y ≤ p.investment_term) (hden : annuityDenom p ≠ 0) :
    project_cash_flows p = some (cash_flows p) ∧
    (cash_flows p)[y]? =
      some (netCashFor p (p.opex_day * 365 * (1 + p.opex_growth / 100) ^ (y - 1)) y) :=
  ⟨project_cash_flows_some p hden, cash_flows_entry p y h1 h2⟩

/-- C6 witness: the default parameters at year 3 — the projection
completes and year 3 applies opex `10000 * 365 * (1 + 2/100)^2`. -/
theorem cash_flows_opex_geometric_witness :
    1 ≤ 3 ∧ 3 ≤ defaultParams.investment_term ∧ annuityDenom defaultParams ≠ 0 ∧
    (cash_flows defaultParams)[3]? =
      some (netCashFor defaultParams
        (defaultParams.opex_day * 365 * (1 + defaultParams.opex_growth / 100) ^ (3 - 1)) 3) := by
  have hden : annuityDenom defaultParams ≠ 0 := by
    norm_num [annuityDenom, defaultParams]
  exact ⟨by norm_num, by norm_num [defaultParams], hden,
    (cash_flows_opex_geometric defaultParams 3 (by norm_num) (by norm_num [defaultParams]) hden).2⟩

/-! ### Claim C4 — year-0 amount with loan fraction 0 -/

/-- C4 counterexample: a parameter record with loan fraction 0, no
overhaul cost, purchase price 50,000,000 and the default arrangement
fee 100,000 has year-0 amount −50,100,000, not −purchase_price: the
claim forgot the arrangement fee, which the source adds
unconditionally (line 68). -/
theorem cash_flows_year0_fee_counterexample :
    noLoanParams.mortgage_percent = 0 ∧
    noLoanParams.dd_cost = 0 ∧
    noLoanParams.purchase_price = 50000000 ∧
    (cash_flows noLoanParams)[0]? = some (-50100000 : ℚ) ∧
    (-50100000 : ℚ) ≠ -(50000000 : ℚ) := by
  refine ⟨rfl, rfl, rfl, ?_, by norm_num⟩
  rw [cash_flows_entry_zero]
  norm_num [initial_equity, noLoanParams]

/-- C4 amended: with loan fraction 0 the year-0 amount is
`−(purchase_price + arrangement fee)`; it equals `−purchase_price`
exactly only when the arrangement fee is also 0. -/
theorem cash_flows_year0_equity_plus_fee (p : Params)
    (hm : p.mortgage_percent = 0) (hden : annuityDenom p ≠ 0) :
    project_cash_flows p = some (cash_flows p) ∧
    (cash_flows p)[0]? = some (-(p.purchase_price + p.loan_arrangement_fee)) ∧
    (p.loan_arrangement_fee = 0 → (cash_flows p)[0]? = some (-p.purchase_price)) := by
  have h0 : (cash_flows p)[0]? = some (-(p.purchase_price + p.loan_arrangement_fee)) := by
    rw [cash_flows_entry_zero]
    congr 1
    rw [initial_equity, hm]
    ring
  refine ⟨project_cash_flows_some p hden, h0, fun hfee => ?_⟩
  rw [h0, hfee]
  norm_num

/-- C4 witness: the amended statement at the concrete unleveraged
default parameters. -/
theorem cash_flows_year0_equity_plus_fee_witness :
    noLoanParams.mortgage_percent = 0 ∧
    annuityDenom noLoanParams ≠ 0 ∧
    (cash_flows noLoanParams)[0]? =
      some (-(noLoanParams.purchase_price + noLoanParams.loan_arrangement_fee)) := by
  have hden : annuityDenom noLoanParams ≠ 0 := by
    norm_num [annuityDenom, noLoanParams]
  exact ⟨rfl, hden, (cash_flows_year0_equity_plus_fee noLoanParams rfl hden).2.1⟩

/-! ### Claim C10 — fixed 1% sale commission in the final year -/

/-- C10: the net disposal proceeds added to the final year's entry are
`estimate_resale_price(...) × (1 − 0.01)`; the commission rate is the
program constant `sale_commission_rate = 1` (line 51), not a caller
parameter (`Params` has no commission field). -/
theorem final_year_resale_commission_fixed (p : Params)
    (h1 : 1 ≤ p.investment_term) (hden : annuityDenom p ≠ 0) :
    resale_price_net p =
      estimate_resale_price p.vessel_type p.investment_term p.three_yr_tc * (1 - 1 / 100) ∧
    project_cash_flows p = some (cash_flows p) ∧
    (cash_flows p)[p.investment_term]? =
      some (earningsFor p p.investment_term
        - p.opex_day * 365 * (1 + p.opex_growth / 100) ^ (p.investment_term - 1)
        - (if p.investment_term ≤ p.loan_repayment_term then annual_loan_payment p else 0)
        - (if p.dd_year = p.investment_term ∧ 0 < p.dd_cost then p.dd_cost else 0)
        + resale_price_net p) := by
  refine ⟨by rw [resale_price_net, resale_price, sale_commission_rate],
    project_cash_flows_some p hden, ?_⟩
  rw [cash_flows_entry p p.investment_term h1 le_rfl]
  congr 1
  rw [netCashFor_closed, if_pos rfl]

/-- C10 witness: the default parameters — the final-year (year 5)
entry carries the net resale value at the fixed 1% commission. -/
theorem final_year_resale_commission_fixed_witness :
    1 ≤ defaultParams.investment_term ∧ annuityDenom defaultParams ≠ 0 ∧
    resale_price_net defaultParams =
      estimate_resale_price defaultParams.vessel_type defaultParams.investment_term
        defaultParams.three_yr_tc * (1 - 1 / 100) := by
  have hden : annuityDenom defaultParams ≠ 0 := by
    norm_num [annuityDenom, defaultParams]
  exact ⟨by norm_num [defaultParams], hden,
    (final_year_resale_commission_fixed defaultParams (by norm_num [defaultParams]) hden).1⟩

/-! ### Claim C8 — no configuration validation before projection -/

/-- Loop bodies agree with the `dd_cost := 0` variant at any year that
is not the configured dry-dock year. -/
theorem netCashFor_dd_irrelevant (p : Params) (ox : ℚ) (year : ℕ)
    (h : p.dd_year ≠ year) :
    netCashFor p ox year = netCashFor {p with dd_cost := 0} ox year := by
  simp [netCashFor, h, earningsFor, annual_loan_payment, annuity_payment, loan_amount,
    resale_price_net, resale_price]

/-- The projection loop never reads `dd_cost` when the configured
dry-dock year lies outside the visited year range. -/
theorem projectLoop_dd_irrelevant (p : Params) :
    ∀ (fuel start : ℕ) (ox : ℚ), (∀ y, start ≤ y → y < start + fuel → p.dd_year ≠ y) →
      projectLoop p start ox fuel = projectLoop {p with dd_cost := 0} start ox fuel := by
  intro fuel
  induction fuel with
  | zero => intro start ox _; rfl
  | succ fuel ih =>
    intro start ox h
    simp only [projectLoop]
    rw [netCashFor_dd_irrelevant p ox start (h start le_rfl (by omega))]
    rw [ih (start + 1) (ox * (1 + p.opex_growth / 100)) (fun y hy1 hy2 => h y (by omega) (by omega))]

/-- C8 counterexample: with dry-dock year 7 outside the holding period
`[1, 5]` (an invariant violation of §3) and a positive dry-dock cost,
no error of any kind is surfaced: the projection runs to completion
and returns exactly the flows of the same configuration with
`dd_cost = 0` — the malformed value is silently ignored. -/
theorem projection_runs_despite_bad_dd_year :
    badDDParams.investment_term = 5 ∧
    badDDParams.dd_year = 7 ∧
    badDDParams.dd_cost = 1000 ∧
    project_cash_flows badDDParams = some (cash_flows badDDParams) ∧
    cash_flows badDDParams = cash_flows badDDParamsZero := by
  refine ⟨rfl, rfl, rfl, ?_, ?_⟩
  · exact project_cash_flows_some _ (by norm_num [annuityDenom, badDDParams])
  · have h := projectLoop_dd_irrelevant badDDParams badDDParams.investment_term 1
      (badDDParams.opex_day * 365) (fun y hy1 hy2 => by
        simp only [badDDParams] at hy2 ⊢
        omega)
    calc cash_flows badDDParams
        = (-(initial_equity badDDParams) - badDDParams.loan_arrangement_fee) ::
            projectLoop {badDDParams with dd_cost := 0} 1
              (badDDParams.opex_day * 365) badDDParams.investment_term := by
          rw [cash_flows, h]
      _ = cash_flows badDDParamsZero := rfl

/-- C8 amended: the source performs no validation of
`InvestmentParameters`: when the dry-dock year lies outside
`[1, investment_term]`, projection still runs (no ConfigurationError
exists anywhere in the program) and produces exactly the flows of the
same parameters with the overhaul cost removed — the malformed value
is silently ignored rather than surfaced. -/
theorem cash_flows_ignores_out_of_range_dd (p : Params)
    (hdd : p.dd_year = 0 ∨ p.investment_term < p.dd_year) (hden : annuityDenom p ≠ 0) :
    project_cash_flows p = some (cash_flows p) ∧
    cash_flows p = cash_flows {p with dd_cost := 0} := by
  refine ⟨project_cash_flows_some p hden, ?_⟩
  rw [cash_flows, cash_flows]
  rw [projectLoop_dd_irrelevant p p.investment_term 1 (p.opex_day * 365)
    (fun y hy1 hy2 => by omega)]
  rfl

/-- C8 witness: the amended statement at the concrete bad-dry-dock
parameters (dd year 7, holding period 5). -/
theorem cash_flows_ignores_out_of_range_dd_witness :
    (badDDParams.dd_year = 0 ∨ badDDParams.investment_term < badDDParams.dd_year) ∧
    annuityDenom badDDParams ≠ 0 ∧
    cash_flows badDDParams = cash_flows {badDDParams with dd_cost := 0} := by
  have hden : annuityDenom badDDParams ≠ 0 := by
    norm_num [annuityDenom, badDDParams]
  exact ⟨Or.inr (by norm_num [badDDParams]), hden,
    (cash_flows_ignores_out_of_range_dd badDDParams
      (Or.inr (by norm_num [badDDParams])) hden).2⟩

/-! ### Sign and bound lemmas for non-negative schedules -/

/-- A non-negative schedule has non-negative NPV at any rate above −1. -/
theorem npvAux_nonneg (r : ℚ) (hr : 0 < 1 + r) :
    ∀ (l : List ℚ) (i : ℕ), (∀ x ∈ l, 0 ≤ x) → 0 ≤ npvAux r i l := by
  intro l
  induction l with
  | nil => intro i _; simp [npvAux]
  | cons a l ih =>
    intro i h
    have ha : 0 ≤ a := h a (List.mem_cons_self a l)
    have hrest : ∀ x ∈ l, 0 ≤ x := fun x hx => h x (List.mem_cons_of_mem a hx)
    simp only [npvAux]
    exact add_nonneg (div_nonneg ha (pow_pos hr i).le) (ih (i + 1) hrest)

/-- A non-negative schedule has non-positive NPV derivative at any
rate above −1. -/
theorem derivAux_nonpos (r : ℚ) (hr : 0 < 1 + r) :
    ∀ (l : List ℚ) (i : ℕ), (∀ x ∈ l, 0 ≤ x) → derivAux r i l ≤ 0 := by
  intro l
  induction l with
  | nil => intro i _; simp [derivAux]
  | cons a l ih =>
    intro i h
    have ha : 0 ≤ a := h a (List.mem_cons_self a l)
    have hrest : ∀ x ∈ l, 0 ≤ x := fun x hx => h x (List.mem_cons_of_mem a hx)
    have hia : 0 ≤ (i : ℚ) * a := mul_nonneg (Nat.cast_nonneg i) ha
    have hnum : -(i : ℚ) * a ≤ 0 := by linarith
    have hterm : -(i : ℚ) * a / (1 + r) ^ (i + 1) ≤ 0 :=
      div_nonpos_iff.mpr (Or.inr ⟨hnum, (pow_pos hr (i + 1)).le⟩)
    simp only [derivAux]
    have := ih (i + 1) hrest
    linarith

/-- Index-weighted comparison: on a non-negative schedule whose indices
run from `i`, the (sign-flipped) derivative scaled by `1 + r` is at
most `(i + length)` times the NPV — each summand's index is below
`i + length`. -/
theorem derivAux_le_mul_npvAux (r : ℚ) (hr : 0 < 1 + r) :
    ∀ (l : List ℚ) (i : ℕ), (∀ x ∈ l, 0 ≤ x) →
      (1 + r) * -(derivAux r i l) ≤ ((i + l.length : ℕ) : ℚ) * npvAux r i l := by
  intro l
  induction l with
  | nil => intro i _; simp [derivAux, npvAux]
  | cons a l ih =>
    intro i h
    have ha : 0 ≤ a := h a (List.mem_cons_self a l)
    have hrest : ∀ x ∈ l, 0 ≤ x := fun x hx => h x (List.mem_cons_of_mem a hx)
    have hne : (1 + r) ≠ 0 := ne_of_gt hr
    have hkey : (1 + r) * ((i : ℚ) * a / (1 + r) ^ (i + 1)) = (i : ℚ) * a / (1 + r) ^ i := by
      rw [pow_succ]
      field_simp
      ring
    have hL : (1 + r) * -(derivAux r i (a :: l))
        = (i : ℚ) * a / (1 + r) ^ i + (1 + r) * -(derivAux r (i + 1) l) := by
      simp only [derivAux]
      rw [← hkey]
      ring
    have hR : ((i + (a :: l).length : ℕ) : ℚ) * npvAux r i (a :: l)
        = ((i + (l.length + 1) : ℕ) : ℚ) * (a / (1 + r) ^ i)
          + ((i + (l.length + 1) : ℕ) : ℚ) * npvAux r (i + 1) l := by
      simp only [npvAux, List.length_cons]
      ring
    rw [hL, hR]
    have h1 : (i : ℚ) * a / (1 + r) ^ i ≤ ((i + (l.length + 1) : ℕ) : ℚ) * (a / (1 + r) ^ i) := by
      rw [mul_div_assoc]
      refine mul_le_mul_of_nonneg_right ?_ (div_nonneg ha (pow_pos hr i).le)
      exact_mod_cast Nat.le_add_right i (l.length + 1)
    have h2 : (1 + r) * -(derivAux r (i + 1) l)
        ≤ ((i + (l.length + 1) : ℕ) : ℚ) * npvAux r (i + 1) l := by
      calc (1 + r) * -(derivAux r (i + 1) l)
          ≤ (((i + 1) + l.length : ℕ) : ℚ) * npvAux r (i + 1) l := ih (i + 1) hrest
        _ = ((i + (l.length + 1) : ℕ) : ℚ) * npvAux r (i + 1) l := by
            rw [show (i + 1) + l.length = i + (l.length + 1) by omega]
    exact add_le_add h1 h2

/-- On a non-negative schedule of length at most 10⁶, starting at any
rate ≥ 0.1, every Newton step is at least `(1 + rate)/length >
1.1·10⁻⁶ > tolerance`, so the loop never converges: it either hits a
zero derivative or exhausts its budget, returning `nan` either way. -/
theorem irrLoop_nonneg_nan (cfs : List ℚ) (hnn : ∀ x ∈ cfs, 0 ≤ x)
    (hlen : cfs.length ≤ 1000000) :
    ∀ (fuel : ℕ) (guess : ℚ), 1/10 ≤ guess →
      irrLoop cfs (1/1000000) guess fuel = .nan := by
  intro fuel
  induction fuel with
  | zero => intro guess _; rfl
  | succ n ih =>
    intro guess hg
    have hr : 0 < 1 + guess := by linarith
    by_cases hd : npvDeriv cfs guess = 0
    · exact irrLoop_deriv_zero cfs (1/1000000) guess n hd
    · have hd0 : npvDeriv cfs guess ≤ 0 := derivAux_nonpos guess hr cfs 0 hnn
      have hdneg : npvDeriv cfs guess < 0 := lt_of_le_of_ne hd0 hd
      have hnpv : 0 ≤ npv cfs guess := npvAux_nonneg guess hr cfs 0 hnn
      have hbound := derivAux_le_mul_npvAux guess hr cfs 0 hnn
      rw [Nat.zero_add] at hbound
      have hne : cfs ≠ [] := by
        rintro rfl
        exact hd rfl
      have hLpos : (0 : ℚ) < (cfs.length : ℚ) := by
        have := List.length_pos.mpr hne
        exact_mod_cast this
      have hstep_ge : (1 + guess) / (cfs.length : ℚ) ≤ npv cfs guess / -(npvDeriv cfs guess) := by
        rw [div_le_div_iff₀ hLpos (by linarith : (0 : ℚ) < -(npvDeriv cfs guess))]
        calc (1 + guess) * -(npvDeriv cfs guess)
            ≤ ((cfs.length : ℚ)) * npv cfs guess := hbound
          _ = npv cfs guess * ((cfs.length : ℚ)) := mul_comm _ _
      have hlow : (11/10 : ℚ) / 1000000 ≤ (1 + guess) / (cfs.length : ℚ) :=
        div_le_div₀ (by linarith) (by linarith) hLpos (by exact_mod_cast hlen)
      have hstep_big : (1/1000000 : ℚ) < npv cfs guess / -(npvDeriv cfs guess) := by
        have h0 : (1/1000000 : ℚ) < (11/10 : ℚ) / 1000000 := by norm_num
        linarith
      have hnewpos : 0 < npv cfs guess / -(npvDeriv cfs guess) := by
        have h0 : (0 : ℚ) < 1/1000000 := by norm_num
        linarith
      have hstepeq : guess - npv cfs guess / npvDeriv cfs guess - guess
          = npv cfs guess / -(npvDeriv cfs guess) := by
        rw [div_neg]
        ring
      have habs : ¬ |guess - npv cfs guess / npvDeriv cfs guess - guess| < 1/1000000 := by
        rw [hstepeq, abs_of_pos hnewpos]
        exact not_lt.mpr hstep_big.le
      rw [irrLoop_step cfs (1/1000000) guess n hd, if_neg habs]
      have hgnew : 1/10 ≤ guess - npv cfs guess / npvDeriv cfs guess := by
        have hq : npv cfs guess / npvDeriv cfs guess
            = -(npv cfs guess / -(npvDeriv cfs guess)) := by
          rw [div_neg, neg_neg]
        rw [hq]
        linarith
      exact ih (guess - npv cfs guess / npvDeriv cfs guess) hgnew

/-! ### Claim C7 — all-non-negative schedules never yield a finite rate -/

/-- C7: for every cash-flow sequence whose amounts are all
non-negative (no sign change) — of any length up to 10⁶, far beyond
the at-most-11 entries this program builds — the solver run at the
source's default tolerance 10⁻⁶, any starting guess ≥ the default 0.1,
and any iteration budget returns `nan`, never a finite rate. -/
theorem calculate_irr_nonneg_flows_nan (cfs : List ℚ) (guess : ℚ) (max_iterations : ℕ)
    (hnn : ∀ x ∈ cfs, 0 ≤ x) (hlen : cfs.length ≤ 1000000) (hg : 1/10 ≤ guess) :
    calculate_irr cfs guess max_iterations (1/1000000) = .nan := by
  rw [calculate_irr]
  exact irrLoop_nonneg_nan cfs hnn hlen max_iterations guess hg

/-- C7 witness: the all-non-negative schedule `[0, 1]` with the
source's default guess, budget and tolerance returns `nan`. -/
theorem calculate_irr_nonneg_flows_nan_witness :
    (∀ x ∈ [(0 : ℚ), 1], 0 ≤ x) ∧ [(0 : ℚ), 1].length ≤ 1000000 ∧ (1/10 : ℚ) ≤ 1/10 ∧
    calculate_irr [(0 : ℚ), 1] (1/10) 1000 (1/1000000) = .nan := by
  have hnn : ∀ x ∈ [(0 : ℚ), 1], 0 ≤ x := by
    intro x hx
    simp only [List.mem_cons, List.mem_singleton] at hx
    rcases hx with rfl | hx
    · norm_num
    · rcases hx with rfl | hfalse
      · norm_num
      · simp at hfalse
  exact ⟨hnn, by norm_num, le_rfl,
    calculate_irr_nonneg_flows_nan [(0 : ℚ), 1] (1/10) 1000 hnn (by norm_num) le_rfl⟩
